import Mathlib

/-!
Shallow embedding of the `agent_replay` core (trace data model, replay
engine, diff engine) from `src/agent_replay/trace.py`, `replay.py` and
`diff.py`, together with proofs of the specification's claims.

Modelling conventions:
* Timestamps are Python floats used only for ordering and equality; they are
  modelled as `Nat`.
* Python's `sorted`/`list.sort` are stable sorts by a key; they are modelled
  by Mathlib's `List.insertionSort` with the relation `key a ≤ key b`, which
  is the (unique) stable sort for that key.
* Event payloads (`data` dicts) are open mappings treated opaquely by every
  core operation (verbatim serialization, `.get` lookup, equality, and
  stringification); they are modelled as ordered association lists of scalar
  Python values.
* The persisted JSONL file is modelled at record level: one constructor per
  line shape (`trace_header`, `span`, unrecognized). Field absence is
  modelled with `Option`; fallible loading returns `Except String`.
-/

/-- Scalar Python value as stored in an event payload / metadata dict.
`PyVal.none` is Python's `None`, which is also what `dict.get` returns for
a missing key. -/
inductive PyVal where
  | none
  | num (n : Nat)
  | str (s : String)
deriving DecidableEq, Repr

/-- An ordered string-keyed mapping (a Python dict with unique keys). -/
abbrev Payload := List (String × PyVal)

/-- `d.get(k)`: first value bound to `k`, or `None` when the key is absent. -/
def pyGet (d : Payload) (k : String) : PyVal :=
  (d.lookup k).getD PyVal.none

/-- `d.get(k, default)` with an explicit default. -/
def pyGetD (d : Payload) (k : String) (dflt : PyVal) : PyVal :=
  (d.lookup k).getD dflt

/-- `str(v)` for a scalar payload value (as used inside f-strings). -/
def pyStrVal : PyVal → String
  | .none => "None"
  | .num n => toString n
  | .str s => s

/-- `repr(v)` for a scalar payload value (as used when rendering a dict). -/
def pyReprVal : PyVal → String
  | .none => "None"
  | .num n => toString n
  | .str s => "'" ++ s ++ "'"

/-- `str(d)` for a payload dict: `\x7b'k': repr(v), ...\x7d`. -/
def pyStrData (d : Payload) : String :=
  "\x7b" ++ String.intercalate ", "
    (d.map (fun kv => "'" ++ kv.1 ++ "': " ++ pyReprVal kv.2)) ++ "\x7d"

/-- `EventType`: the eight enumerated event kinds of `trace.py`. -/
inductive EventType where
  | llm_request
  | llm_response
  | tool_call
  | tool_result
  | decision
  | state_change
  | error
  | log
deriving DecidableEq, Repr

/-- The wire string of an event kind (`EventType.value` in the source). -/
def EventType.value : EventType → String
  | .llm_request => "llm_request"
  | .llm_response => "llm_response"
  | .tool_call => "tool_call"
  | .tool_result => "tool_result"
  | .decision => "decision"
  | .state_change => "state_change"
  | .error => "error"
  | .log => "log"

/-- Parsing a wire string back to an event kind; `Option.none` models the
`ValueError` raised by `EventType(...)` on an unknown string. -/
def EventType.ofValue (s : String) : Option EventType :=
  if s = "llm_request" then some .llm_request
  else if s = "llm_response" then some .llm_response
  else if s = "tool_call" then some .tool_call
  else if s = "tool_result" then some .tool_result
  else if s = "decision" then some .decision
  else if s = "state_change" then some .state_change
  else if s = "error" then some .error
  else if s = "log" then some .log
  else none

/-- `Event` from `trace.py`: one timestamped occurrence. -/
structure Event where
  event_type : EventType
  timestamp : Nat
  data : Payload
  event_id : String
deriving DecidableEq, Repr

/-- `Span` from `trace.py`: a named container of events. -/
structure Span where
  name : String
  span_id : String
  parent_id : Option String
  start_time : Nat
  end_time : Option Nat
  events : List Event
  metadata : Payload
deriving DecidableEq, Repr

/-- `Trace` from `trace.py`: a named ordered sequence of spans. -/
structure Trace where
  trace_id : String
  name : String
  start_time : Nat
  end_time : Option Nat
  spans : List Span
  metadata : Payload
deriving DecidableEq, Repr

/-- `Trace.event_count`: sum of per-span event counts. -/
def Trace.event_count (t : Trace) : Nat :=
  (t.spans.map (fun s => s.events.length)).sum

/-- The events of every span in storage order (spans in trace order, events
in per-span order): the list `all_events` sorts. -/
def Trace.flat_events (t : Trace) : List Event :=
  t.spans.flatMap Span.events

/-- The sort key relation used by `all_events`: timestamp order. -/
def eventLe (a b : Event) : Prop := a.timestamp ≤ b.timestamp

instance : DecidableRel eventLe := fun a b => Nat.decLe a.timestamp b.timestamp

instance : IsTotal Event eventLe := ⟨fun a b => Nat.le_total a.timestamp b.timestamp⟩

instance : IsTrans Event eventLe := ⟨fun _ _ _ => Nat.le_trans⟩

/-- `Trace.all_events`: all events across spans, sorted (stably) by
timestamp. -/
def Trace.all_events (t : Trace) : List Event :=
  List.insertionSort eventLe t.flat_events

/-- The sort key relation on `(span, event)` pairs used by the replay
engine's flat list: timestamp of the event. -/
def pairLe (p q : Span × Event) : Prop := p.2.timestamp ≤ q.2.timestamp

instance : DecidableRel pairLe := fun p q => Nat.decLe p.2.timestamp q.2.timestamp

instance : IsTotal (Span × Event) pairLe := ⟨fun p q => Nat.le_total p.2.timestamp q.2.timestamp⟩

instance : IsTrans (Span × Event) pairLe := ⟨fun _ _ _ => Nat.le_trans⟩

/-- `ReplayEngine._build_flat_list`: every span's events paired with their
owning span, flattened in storage order and stably sorted by timestamp. -/
def buildFlatList (t : Trace) : List (Span × Event) :=
  List.insertionSort pairLe (t.spans.flatMap (fun s => s.events.map (fun e => (s, e))))

/-- Python list indexing with an `int` index: negative indices count from
the end, and an index that is still out of range yields no value (the
source would raise `IndexError` there). -/
def pyIndex (l : List α) (i : Int) : Option α :=
  let j : Int := if i < 0 then (l.length : Int) + i else i
  if 0 ≤ j then l[j.toNat]? else Option.none

/-- `ReplayEngine` from `replay.py`: the trace, the flat `(span, event)`
tape, and the integer cursor position. -/
structure ReplayEngine where
  trace : Trace
  flat : List (Span × Event)
  position : Int
deriving DecidableEq, Repr

/-- `ReplayEngine.__init__`. -/
def ReplayEngine.init (t : Trace) : ReplayEngine :=
  { trace := t, flat := buildFlatList t, position := 0 }

/-- `ReplayEngine.total_steps`. -/
def ReplayEngine.total_steps (e : ReplayEngine) : Nat := e.flat.length

/-- `ReplayEngine.has_next`. -/
def ReplayEngine.has_next (e : ReplayEngine) : Bool :=
  e.position < (e.flat.length : Int)

/-- `ReplayEngine.has_prev`. -/
def ReplayEngine.has_prev (e : ReplayEngine) : Bool :=
  0 < e.position

/-- `ReplayEngine.step`: returns the pair at the cursor and advances, or the
`None` sentinel at the end. The method mutates `self`; the model returns the
result together with the new state. -/
def ReplayEngine.step (e : ReplayEngine) : Option (Span × Event) × ReplayEngine :=
  if e.has_next then
    (pyIndex e.flat e.position, { e with position := e.position + 1 })
  else (Option.none, e)

/-- `ReplayEngine.step_back`: decrements the cursor and returns the pair now
at it, or the `None` sentinel at position 0. -/
def ReplayEngine.step_back (e : ReplayEngine) : Option (Span × Event) × ReplayEngine :=
  if e.has_prev then
    (pyIndex e.flat (e.position - 1), { e with position := e.position - 1 })
  else (Option.none, e)

/-- `ReplayEngine.peek`: the pair at the cursor without advancing. -/
def ReplayEngine.peek (e : ReplayEngine) : Option (Span × Event) :=
  if e.has_next then pyIndex e.flat e.position else Option.none

/-- `ReplayEngine.jump`: sets the cursor iff `0 <= target < len(flat)` and
returns the pair there; otherwise the `None` sentinel with the state
unchanged. -/
def ReplayEngine.jump (e : ReplayEngine) (target : Int) : Option (Span × Event) × ReplayEngine :=
  if 0 ≤ target ∧ target < (e.flat.length : Int) then
    (pyIndex e.flat target, { e with position := target })
  else (Option.none, e)

/-- `ReplayEngine.reset`. -/
def ReplayEngine.reset (e : ReplayEngine) : ReplayEngine :=
  { e with position := 0 }

/-- `ReplayEngine.current_span_events`: all pairs sharing the span id of the
pair at `min(position, len(flat) - 1)`, guarded by
`if not self._flat or self._position >= len(self._flat): return []`.
(The fallback `Option.none` branch of the index is unreachable for cursor
positions in `[0, len]`.) -/
def ReplayEngine.current_span_events (e : ReplayEngine) : List (Span × Event) :=
  if e.flat.isEmpty ∨ (e.flat.length : Int) ≤ e.position then []
  else
    match pyIndex e.flat (min e.position ((e.flat.length : Int) - 1)) with
    | some p => e.flat.filter (fun q => q.1.span_id == p.1.span_id)
    | Option.none => []

/-- `startsWith needle hay`: the chars of `needle` are an initial segment of
`hay`. -/
def startsWith : List Char → List Char → Bool
  | [], _ => true
  | _ :: _, [] => false
  | a :: as, b :: bs => a == b && startsWith as bs

/-- `hasSub needle hay`: `needle` occurs as a contiguous run in `hay`. -/
def hasSub (needle : List Char) : List Char → Bool
  | [] => needle.isEmpty
  | c :: rest => startsWith needle (c :: rest) || hasSub needle rest

/-- Python's `needle in hay` on strings. -/
def pyIn (needle hay : String) : Bool := hasSub needle.data hay.data

/-- Python's `s.lower()` (ASCII case mapping, which covers every string the
core itself produces). -/
def pyLower (s : String) : String := String.mk (s.data.map Char.toLower)

/-- The string the replay engine's search scans for one tape pair:
`f"\x7bspan.name\x7d \x7bevent.event_type.value\x7d \x7bevent.data\x7d"`. -/
def searchable (p : Span × Event) : String :=
  p.1.name ++ " " ++ p.2.event_type.value ++ " " ++ pyStrData p.2.data

/-- The indexed scan of `ReplayEngine.search`. -/
def searchAux (ql : String) (i : Nat) : List (Span × Event) → List Nat
  | [] => []
  | p :: rest =>
    (if pyIn ql (pyLower (searchable p)) then [i] else []) ++ searchAux ql (i + 1) rest

/-- `ReplayEngine.search`: every tape index whose searchable string contains
the query case-insensitively. -/
def ReplayEngine.search (e : ReplayEngine) (query : String) : List Nat :=
  searchAux (pyLower query) 0 e.flat

/-- `Divergence` from `diff.py`: one detected difference at a tape
position. -/
structure Divergence where
  position : Nat
  description : String
  trace_a_event : Option Event
  trace_b_event : Option Event
  trace_a_span : String
  trace_b_span : String
  severity : String
deriving DecidableEq, Repr

/-- `DiffResult` from `diff.py`. -/
structure DiffResult where
  trace_a_id : String
  trace_b_id : String
  divergences : List Divergence
  summary : String
deriving DecidableEq, Repr

/-- `DiffResult.identical`: true iff the divergence list is empty. -/
def DiffResult.identical (r : DiffResult) : Bool := r.divergences.isEmpty

/-- `DiffResult.critical_count`: number of divergences whose severity is
`"critical"`. -/
def DiffResult.critical_count (r : DiffResult) : Nat :=
  (r.divergences.filter (fun d => d.severity == "critical")).length

/-- `_span_for_event` in `diff_traces`: the name of the first span owning an
event with this event's id, or `"unknown"`. -/
def span_for_event (t : Trace) (e : Event) : String :=
  match t.spans.find? (fun s => s.events.any (fun x => x.event_id == e.event_id)) with
  | some s => s.name
  | Option.none => "unknown"

/-- One iteration of the lockstep walk in `diff_traces`: the divergences the
loop body appends at index `i` given `events_a[i]`/`events_b[i]` (`none`
when that side's sequence is exhausted). -/
def diffAt (ta tb : Trace) (oa ob : Option Event) (i : Nat) : List Divergence :=
  match oa, ob with
  | Option.none, some eb =>
    [{ position := i
       description := "Trace B has extra event: " ++ eb.event_type.value
       trace_a_event := Option.none
       trace_b_event := some eb
       trace_a_span := ""
       trace_b_span := span_for_event tb eb
       severity := "warning" }]
  | some ea, Option.none =>
    [{ position := i
       description := "Trace A has extra event: " ++ ea.event_type.value
       trace_a_event := some ea
       trace_b_event := Option.none
       trace_a_span := span_for_event ta ea
       trace_b_span := ""
       severity := "warning" }]
  | some ea, some eb =>
    if ea.event_type ≠ eb.event_type then
      [{ position := i
         description := "Event type divergence: " ++ ea.event_type.value
           ++ " vs " ++ eb.event_type.value
         trace_a_event := some ea
         trace_b_event := some eb
         trace_a_span := span_for_event ta ea
         trace_b_span := span_for_event tb eb
         severity := "critical" }]
    else
      match ea.event_type with
      | .tool_call =>
        if pyGet ea.data "tool" ≠ pyGet eb.data "tool" then
          [{ position := i
             description := "Different tool called: " ++ pyStrVal (pyGet ea.data "tool")
               ++ " vs " ++ pyStrVal (pyGet eb.data "tool")
             trace_a_event := some ea
             trace_b_event := some eb
             trace_a_span := span_for_event ta ea
             trace_b_span := span_for_event tb eb
             severity := "critical" }]
        else []
      | .llm_response =>
        if pyGetD ea.data "content" (.str "") ≠ pyGetD eb.data "content" (.str "") then
          [{ position := i
             description := "LLM response content differs"
             trace_a_event := some ea
             trace_b_event := some eb
             trace_a_span := span_for_event ta ea
             trace_b_span := span_for_event tb eb
             severity := "info" }]
        else []
      | .decision =>
        if pyGet ea.data "choice" ≠ pyGet eb.data "choice" then
          [{ position := i
             description := "Decision divergence: '" ++ pyStrVal (pyGet ea.data "choice")
               ++ "' vs '" ++ pyStrVal (pyGet eb.data "choice") ++ "'"
             trace_a_event := some ea
             trace_b_event := some eb
             trace_a_span := span_for_event ta ea
             trace_b_span := span_for_event tb eb
             severity := "critical" }]
        else []
      | _ => []
  | Option.none, Option.none => []

/-- `diff_traces` from `diff.py`: walk the two canonical event sequences in
lockstep and collect divergences, then attach the summary. (The
`span_lookup_a/b` dicts the source builds are never used by it and are
omitted.) -/
def diff_traces (ta tb : Trace) : DiffResult :=
  let events_a := ta.all_events
  let events_b := tb.all_events
  let maxLen := max events_a.length events_b.length
  let divs := (List.range maxLen).flatMap (fun i => diffAt ta tb events_a[i]? events_b[i]? i)
  let critical := (divs.filter (fun d => d.severity == "critical")).length
  let n := divs.length
  { trace_a_id := ta.trace_id
    trace_b_id := tb.trace_id
    divergences := divs
    summary :=
      if n = 0 then "Traces are identical in structure and content."
      else "Found " ++ toString n ++ " divergence(s): " ++ toString critical
        ++ " critical, " ++ toString (n - critical) ++ " informational." }

/-- One serialized event object (`Event.to_dict` shape); `Option.none`
models a missing key. -/
structure EventRecord where
  event_type : Option String
  timestamp : Option Nat
  data : Option Payload
  event_id : Option String
deriving DecidableEq, Repr

/-- One serialized span object (`Span.to_dict` shape). In `from_dict`,
`parent_id`/`end_time` are read with `.get`, so an absent key and an
explicit `null` coincide and both are one `Option` layer here. -/
structure SpanRecord where
  name : Option String
  span_id : Option String
  parent_id : Option String
  start_time : Option Nat
  end_time : Option Nat
  events : Option (List EventRecord)
  metadata : Option Payload
deriving DecidableEq, Repr

/-- The `trace_header` line of the persisted JSONL file. -/
structure HeaderRecord where
  trace_id : Option String
  name : Option String
  start_time : Option Nat
  end_time : Option Nat
  metadata : Option Payload
deriving DecidableEq, Repr

/-- One line of the persisted JSONL file, discriminated by its `type`
field; `other` covers unrecognized types and blank lines, which `load`
skips. -/
inductive FileRecord where
  | header (h : HeaderRecord)
  | span (s : SpanRecord)
  | other
deriving DecidableEq, Repr

/-- `Event.to_dict`. -/
def Event.to_record (e : Event) : EventRecord :=
  { event_type := some e.event_type.value
    timestamp := some e.timestamp
    data := some e.data
    event_id := some e.event_id }

/-- `Event.from_dict`: requires `event_type` (a valid enum string) and
`timestamp`; `data` defaults to an empty dict. A missing `event_id`
defaults to a fresh uuid in the source; the model uses a fixed placeholder
(no claim exercises that default, since `save` always writes the field). -/
def Event.from_record (r : EventRecord) : Except String Event :=
  match r.event_type with
  | Option.none => .error "KeyError: event_type"
  | some s =>
    match EventType.ofValue s with
    | Option.none => .error ("ValueError: " ++ s ++ " is not a valid EventType")
    | some et =>
      match r.timestamp with
      | Option.none => .error "KeyError: timestamp"
      | some ts =>
        .ok { event_type := et, timestamp := ts, data := r.data.getD []
              event_id := r.event_id.getD "ffffffffffff" }

/-- `Span.to_dict`. -/
def Span.to_record (s : Span) : SpanRecord :=
  { name := some s.name
    span_id := some s.span_id
    parent_id := s.parent_id
    start_time := some s.start_time
    end_time := s.end_time
    events := some (s.events.map Event.to_record)
    metadata := some s.metadata }

/-- `Span.from_dict`: requires `name`, `span_id` and `start_time` (missing
keys raise, in that order, before the events are parsed); `events` and
`metadata` default to empty. -/
def Span.from_record (r : SpanRecord) : Except String Span :=
  match r.name with
  | Option.none => .error "KeyError: name"
  | some nm =>
    match r.span_id with
    | Option.none => .error "KeyError: span_id"
    | some sid =>
      match r.start_time with
      | Option.none => .error "KeyError: start_time"
      | some st => do
        let evs ← (r.events.getD []).mapM Event.from_record
        .ok { name := nm, span_id := sid, parent_id := r.parent_id
              start_time := st, end_time := r.end_time
              events := evs, metadata := r.metadata.getD [] }

/-- `Trace.save`: the header line followed by one `span` line per span, in
storage order (the JSON-text encoding of each line is outside the model;
a line is represented by its parsed record). -/
def Trace.save (t : Trace) : List FileRecord :=
  FileRecord.header
    { trace_id := some t.trace_id
      name := some t.name
      start_time := some t.start_time
      end_time := t.end_time
      metadata := some t.metadata }
  :: t.spans.map (fun s => FileRecord.span s.to_record)

/-- The line-by-line loop of `Trace.load`: a `trace_header` record
overwrites the current header, a `span` record is parsed and appended (a
malformed one aborts the whole load), anything else is skipped. -/
def loadAux : List FileRecord → Option HeaderRecord → List Span →
    Except String (Option HeaderRecord × List Span)
  | [], h, acc => .ok (h, acc)
  | FileRecord.header hr :: rest, _, acc => loadAux rest (some hr) acc
  | FileRecord.span sr :: rest, h, acc =>
    match Span.from_record sr with
    | .error msg => .error msg
    | .ok s => loadAux rest h (acc ++ [s])
  | FileRecord.other :: rest, h, acc => loadAux rest h acc

/-- `Trace.load`: run the line loop, then build the trace from the header
(missing header fields default as in the source; the fresh-uuid default for
a missing `trace_id` is modelled by a fixed placeholder). -/
def Trace.load (recs : List FileRecord) : Except String Trace := do
  let (h, spans) ← loadAux recs Option.none []
  let hr := h.getD { trace_id := Option.none, name := Option.none,
                     start_time := Option.none, end_time := Option.none,
                     metadata := Option.none }
  .ok { trace_id := hr.trace_id.getD "ffffffffffffffff"
        name := hr.name.getD "unnamed"
        start_time := hr.start_time.getD 0
        end_time := hr.end_time
        spans := spans
        metadata := hr.metadata.getD [] }

/-! ## Concrete demonstration data used by witnesses -/

/-- A span with two events (timestamps 1 and 2). -/
def demoSpan1 : Span :=
  { name := "alpha", span_id := "s1", parent_id := Option.none
    start_time := 0, end_time := some 9
    events :=
      [ { event_type := .llm_request, timestamp := 1
          data := [("model", PyVal.str "m")], event_id := "e1" }
      , { event_type := .llm_response, timestamp := 2
          data := [("content", PyVal.str "hi")], event_id := "e2" } ]
    metadata := [] }

/-- A second span whose event ties on timestamp 2 with `demoSpan1`'s second
event, exercising the stable tie-break. -/
def demoSpan2 : Span :=
  { name := "beta", span_id := "s2", parent_id := some "s1"
    start_time := 1, end_time := some 9
    events :=
      [ { event_type := .tool_call, timestamp := 2
          data := [("tool", PyVal.str "search")], event_id := "e3" } ]
    metadata := [] }

/-- A two-span demonstration trace. -/
def demoTrace : Trace :=
  { trace_id := "t1", name := "demo", start_time := 0, end_time := some 9
    spans := [demoSpan1, demoSpan2], metadata := [] }

/-- The tape pair owned by `demoSpan2`. -/
def demoPair : Span × Event :=
  (demoSpan2,
   { event_type := .tool_call, timestamp := 2
     data := [("tool", PyVal.str "search")], event_id := "e3" })

/-! ## C1: canonical event order and the replay tape -/

/-- Filtering an ordered insertion to one timestamp either prepends the
inserted event (when it has that timestamp: every element placed before it
has a strictly smaller timestamp) or leaves the filter unchanged. -/
theorem filter_orderedInsert_ts (c : Nat) (a : Event) (l : List Event) :
    (List.orderedInsert eventLe a l).filter (fun e => e.timestamp == c) =
      (if a.timestamp = c then [a] else []) ++ l.filter (fun e => e.timestamp == c) := by
  induction l with
  | nil => by_cases h : a.timestamp = c <;> simp [List.orderedInsert, h]
  | cons b l ih =>
    rw [List.orderedInsert]
    by_cases hab : eventLe a b
    · rw [if_pos hab]
      by_cases h : a.timestamp = c <;> simp [List.filter_cons, h]
    · rw [if_neg hab]
      rw [List.filter_cons, List.filter_cons]
      by_cases h : a.timestamp = c
      · have hbc : (b.timestamp == c) = false := by
          have hlt : b.timestamp < a.timestamp :=
            Nat.lt_of_not_le (by simpa [eventLe] using hab)
          simp only [beq_eq_false_iff_ne]
          omega
        simp [hbc, ih, h]
      · by_cases hbk : b.timestamp == c <;> simp [hbk, ih, h]

/-- Stability of `all_events`'s sort: restricted to any one timestamp, the
sorted sequence is exactly the storage-order subsequence. -/
theorem filter_insertionSort_ts (c : Nat) (l : List Event) :
    (List.insertionSort eventLe l).filter (fun e => e.timestamp == c) =
      l.filter (fun e => e.timestamp == c) := by
  induction l with
  | nil => rfl
  | cons a l ih =>
    rw [List.insertionSort, filter_orderedInsert_ts, ih, List.filter_cons]
    by_cases h : a.timestamp = c <;> simp [h]

/-- Dropping the span component of the engine's unsorted pair list gives the
storage-order event list. -/
theorem map_snd_flat_pairs (t : Trace) :
    (t.spans.flatMap (fun s => s.events.map (fun e => (s, e)))).map Prod.snd
      = t.flat_events := by
  simp [Trace.flat_events, List.map_flatMap, List.map_map, Function.comp_def]

/-- The events of the replay tape, in tape order, are exactly
`all_events`. -/
theorem tape_map_snd (t : Trace) :
    (ReplayEngine.init t).flat.map Prod.snd = t.all_events := by
  show (buildFlatList t).map Prod.snd = t.all_events
  rw [buildFlatList, Trace.all_events,
    List.map_insertionSort pairLe eventLe Prod.snd _ (fun a _ b _ => Iff.rfl),
    map_snd_flat_pairs]

/-- Every tape pair consists of a span of the trace and an event owned by
that span. -/
theorem mem_tape (t : Trace) (p : Span × Event) (hp : p ∈ (ReplayEngine.init t).flat) :
    p.1 ∈ t.spans ∧ p.2 ∈ p.1.events := by
  have hmem : p ∈ t.spans.flatMap (fun s => s.events.map (fun e => (s, e))) := by
    simpa [ReplayEngine.init, buildFlatList] using hp
  rw [List.mem_flatMap] at hmem
  obtain ⟨s, hs, hin⟩ := hmem
  rw [List.mem_map] at hin
  obtain ⟨e, he, rfl⟩ := hin
  exact ⟨hs, he⟩

/-- C1: `all_events()` returns every event of every span (a permutation of
the storage-order flattening), sorted non-decreasingly by timestamp, with
ties broken by original insertion order (the subsequence at each fixed
timestamp equals the storage-order subsequence); the replay tape's events
equal this sequence, each paired with its owning span. -/
theorem all_events_sorted_stable_and_tape (t : Trace) :
    t.all_events.Perm t.flat_events ∧
    List.Sorted eventLe t.all_events ∧
    (∀ c : Nat, t.all_events.filter (fun e => e.timestamp == c) =
      t.flat_events.filter (fun e => e.timestamp == c)) ∧
    (ReplayEngine.init t).flat.map Prod.snd = t.all_events ∧
    ∀ p ∈ (ReplayEngine.init t).flat, p.1 ∈ t.spans ∧ p.2 ∈ p.1.events :=
  ⟨List.perm_insertionSort eventLe _,
   List.sorted_insertionSort eventLe _,
   fun c => filter_insertionSort_ts c _,
   tape_map_snd t,
   fun p hp => mem_tape t p hp⟩

/-- Witness for C1 at the two-span demonstration trace and a concrete tape
pair. -/
theorem all_events_sorted_stable_and_tape_witness :
    demoPair ∈ (ReplayEngine.init demoTrace).flat ∧
    (demoPair.1 ∈ demoTrace.spans ∧ demoPair.2 ∈ demoPair.1.events) :=
  ⟨by decide, (all_events_sorted_stable_and_tape demoTrace).2.2.2.2 demoPair (by decide)⟩

/-! ## C2: save/load round-trip -/

/-- The wire encoding of an event kind parses back to itself. -/
theorem EventType.ofValue_value (et : EventType) : EventType.ofValue et.value = some et := by
  cases et <;> rfl

/-- Event-level round-trip through the serialized record. -/
theorem event_record_roundtrip (e : Event) : Event.from_record e.to_record = Except.ok e := by
  simp [Event.to_record, Event.from_record, EventType.ofValue_value]

/-- Round-trip of a whole event list through the serialized records. -/
theorem mapM_from_to_record (l : List Event) :
    (l.map Event.to_record).mapM Event.from_record = Except.ok l := by
  induction l with
  | nil => rfl
  | cons e l ih =>
    rw [List.map_cons, List.mapM_cons, event_record_roundtrip, ih]
    rfl

/-- Span-level round-trip through the serialized record. -/
theorem span_record_roundtrip (s : Span) : Span.from_record s.to_record = Except.ok s := by
  simp only [Span.to_record, Span.from_record, Option.getD_some]
  rw [mapM_from_to_record]
  rfl

/-- The load loop over saved span lines appends exactly the original
spans. -/
theorem loadAux_saved_spans (l : List Span) (h : Option HeaderRecord) (acc : List Span) :
    loadAux (l.map (fun s => FileRecord.span s.to_record)) h acc = Except.ok (h, acc ++ l) := by
  induction l generalizing acc with
  | nil => simp [loadAux]
  | cons s l ih =>
    rw [List.map_cons, loadAux, span_record_roundtrip]
    show loadAux _ h (acc ++ [s]) = _
    rw [ih]
    simp

/-- Full trace round-trip: loading a saved trace reproduces it exactly. -/
theorem load_save (t : Trace) : Trace.load (Trace.save t) = Except.ok t := by
  rw [Trace.save, Trace.load]
  rw [loadAux, loadAux_saved_spans]
  show Except.ok _ = _
  simp

/-- C2: for every trace (in particular every trace built via
`add_span`/`add_event` and then closed), loading the saved file yields a
trace with equal `trace_id`, `name`, span count, and, per span, equal event
count and equal event types and data payloads. -/
theorem save_load_roundtrip (t : Trace) :
    ∃ t', Trace.load (Trace.save t) = Except.ok t' ∧
      t'.trace_id = t.trace_id ∧
      t'.name = t.name ∧
      t'.spans.length = t.spans.length ∧
      t'.spans.map (fun s => s.events.length) = t.spans.map (fun s => s.events.length) ∧
      t'.spans.map (fun s => s.events.map Event.event_type)
        = t.spans.map (fun s => s.events.map Event.event_type) ∧
      t'.spans.map (fun s => s.events.map Event.data)
        = t.spans.map (fun s => s.events.map Event.data) :=
  ⟨t, load_save t, rfl, rfl, rfl, rfl, rfl, rfl⟩

/-! ## C3: cursor behaviour of step / step_back / jump / peek -/

/-- `pyIndex` at a non-negative index is plain list indexing. -/
theorem pyIndex_ofNat (l : List α) (k : Nat) : pyIndex l (k : Int) = l[k]? := by
  rw [pyIndex]
  have h1 : ¬((k : Int) < 0) := by omega
  simp [h1]

/-- `pyIndex` of a non-negative `Int` index is indexing at its `toNat`. -/
theorem pyIndex_nonneg (l : List α) (k : Int) (hk : 0 ≤ k) :
    pyIndex l k = l[k.toNat]? := by
  rw [pyIndex]
  have h1 : ¬(k < 0) := by omega
  simp [h1, hk]

/-- `peek` when the cursor is strictly before the end. -/
theorem peek_pos (e : ReplayEngine) (h : e.position < (e.flat.length : Int)) :
    e.peek = pyIndex e.flat e.position := by
  have hh : e.has_next = true := by
    simp only [ReplayEngine.has_next, decide_eq_true_eq]
    exact h
  rw [ReplayEngine.peek, if_pos hh]

/-- Iterated `step`, collecting each call's result. -/
def stepN : ReplayEngine → Nat → List (Option (Span × Event)) × ReplayEngine
  | e, 0 => ([], e)
  | e, n + 1 =>
    let r := e.step
    let rest := stepN r.2 n
    (r.1 :: rest.1, rest.2)

/-- Running `m` steps from position `k` (with `k + m` within the tape)
returns positions `k, k+1, …, k+m-1` of the tape in order and leaves the
cursor at `k + m`. -/
theorem stepN_spec (m : Nat) :
    ∀ (e : ReplayEngine) (k : Nat), e.position = (k : Int) → k + m ≤ e.flat.length →
      (stepN e m).1 = ((e.flat.drop k).take m).map some ∧
      (stepN e m).2 = { e with position := ((k + m : Nat) : Int) } := by
  induction m with
  | zero =>
    intro e k hk _
    refine ⟨by simp [stepN], ?_⟩
    show e = _
    cases e
    simp_all
  | succ m ih =>
    intro e k hk hle
    have hklen : k < e.flat.length := by omega
    have hnext : e.has_next = true := by
      simp only [ReplayEngine.has_next, hk, decide_eq_true_eq]
      exact_mod_cast hklen
    have hstep : e.step = (e.flat[k]?, { e with position := ((k + 1 : Nat) : Int) }) := by
      rw [ReplayEngine.step, if_pos hnext, hk, pyIndex_ofNat]
      have hcast : (k : Int) + 1 = ((k + 1 : Nat) : Int) := by omega
      rw [hcast]
    have ihm := ih { e with position := ((k + 1 : Nat) : Int) } (k + 1) rfl
      (by show k + 1 + m ≤ e.flat.length; omega)
    have h1 : (stepN e (m + 1)).1 = e.step.1 :: (stepN e.step.2 m).1 := rfl
    have h2 : (stepN e (m + 1)).2 = (stepN e.step.2 m).2 := rfl
    have hdrop : e.flat.drop k = e.flat[k] :: e.flat.drop (k + 1) :=
      List.drop_eq_getElem_cons hklen
    constructor
    · rw [h1, hstep]
      show e.flat[k]? :: (stepN { e with position := ((k + 1 : Nat) : Int) } m).1 = _
      rw [ihm.1]
      have hfin : e.flat[k]? :: (((e.flat.drop (k + 1)).take m).map some)
          = ((e.flat.drop k).take (m + 1)).map some := by
        rw [hdrop, List.take_succ_cons, List.map_cons, List.getElem?_eq_getElem hklen]
      exact hfin
    · rw [h2, hstep]
      show (stepN { e with position := ((k + 1 : Nat) : Int) } m).2 = _
      rw [ihm.2]
      have heq : (k + 1) + m = k + (m + 1) := by omega
      rw [heq]

/-- C3: from position 0, `total_steps` calls of `step()` return every tape
entry exactly once in order and leave the cursor at the end; a further
`step()` returns the `None` sentinel and keeps the state; `step_back()` at
position 0 returns the sentinel and keeps the state; `jump(k)` for valid `k`
sets the cursor to `k` and returns the entry at `k`, which a following
`peek()` returns again; `jump(k)` out of range returns the sentinel and
leaves the state unchanged. -/
theorem cursor_invariants (t : Trace) :
    ((stepN (ReplayEngine.init t) (ReplayEngine.init t).total_steps).1
      = (ReplayEngine.init t).flat.map some) ∧
    ((stepN (ReplayEngine.init t) (ReplayEngine.init t).total_steps).2.position
      = ((ReplayEngine.init t).total_steps : Int)) ∧
    ((stepN (ReplayEngine.init t) (ReplayEngine.init t).total_steps).2.step
      = (Option.none, (stepN (ReplayEngine.init t) (ReplayEngine.init t).total_steps).2)) ∧
    ((ReplayEngine.init t).step_back = (Option.none, ReplayEngine.init t)) ∧
    (∀ k : Int, 0 ≤ k → k < ((ReplayEngine.init t).total_steps : Int) →
      ∃ p, (ReplayEngine.init t).flat[k.toNat]? = some p ∧
        (ReplayEngine.init t).jump k = (some p, { ReplayEngine.init t with position := k }) ∧
        ((ReplayEngine.init t).jump k).2.peek = some p) ∧
    (∀ k : Int, k < 0 ∨ ((ReplayEngine.init t).total_steps : Int) ≤ k →
      (ReplayEngine.init t).jump k = (Option.none, ReplayEngine.init t)) := by
  have hspec := stepN_spec (ReplayEngine.init t).total_steps (ReplayEngine.init t) 0 rfl
    (by simp [ReplayEngine.total_steps])
  refine ⟨?_, ?_, ?_, ?_, ?_, ?_⟩
  · rw [hspec.1]
    simp [ReplayEngine.total_steps]
  · rw [hspec.2]
    show (((0 + (ReplayEngine.init t).total_steps : Nat)) : Int) = _
    norm_num
  · rw [hspec.2, ReplayEngine.step, if_neg]
    simp [ReplayEngine.has_next, ReplayEngine.total_steps]
  · rw [ReplayEngine.step_back, if_neg]
    simp [ReplayEngine.has_prev, ReplayEngine.init]
  · intro k hk0 hklen
    have hlen' : k < ((ReplayEngine.init t).flat.length : Int) := by
      rwa [ReplayEngine.total_steps] at hklen
    have hklt : k.toNat < (ReplayEngine.init t).flat.length := by omega
    have hpy : pyIndex (ReplayEngine.init t).flat k = (ReplayEngine.init t).flat[k.toNat]? :=
      pyIndex_nonneg _ k hk0
    have hjump : (ReplayEngine.init t).jump k
        = (some (ReplayEngine.init t).flat[k.toNat],
           { ReplayEngine.init t with position := k }) := by
      rw [ReplayEngine.jump, if_pos ⟨hk0, hlen'⟩, hpy, List.getElem?_eq_getElem hklt]
    refine ⟨(ReplayEngine.init t).flat[k.toNat], List.getElem?_eq_getElem hklt, hjump, ?_⟩
    rw [hjump]
    show ReplayEngine.peek { ReplayEngine.init t with position := k } = _
    rw [peek_pos _ hlen']
    exact hpy.trans (List.getElem?_eq_getElem hklt)
  · intro k hk
    rw [ReplayEngine.jump, if_neg]
    rintro ⟨h0, hlen⟩
    rw [ReplayEngine.total_steps] at hk
    rcases hk with hk | hk <;> omega

/-- Witness for C3: a valid `jump(1)` on the demonstration trace. -/
theorem cursor_invariants_witness :
    ∃ p, (ReplayEngine.init demoTrace).flat[(1 : Int).toNat]? = some p ∧
      (ReplayEngine.init demoTrace).jump 1
        = (some p, { ReplayEngine.init demoTrace with position := 1 }) ∧
      ((ReplayEngine.init demoTrace).jump 1).2.peek = some p :=
  (cursor_invariants demoTrace).2.2.2.2.1 1 (by decide) (by decide)

/-! ## C4: diff identity -/

/-- The lockstep comparison emits nothing when both sides carry the same
event. -/
theorem diffAt_self (ta tb : Trace) (e : Event) (i : Nat) :
    diffAt ta tb (some e) (some e) i = [] := by
  rw [diffAt]
  rw [if_neg (by simp)]
  cases h : e.event_type <;> simp

/-- Diffing a trace against itself produces no divergences. -/
theorem diff_self_divergences (t : Trace) : (diff_traces t t).divergences = [] := by
  show (List.range (max t.all_events.length t.all_events.length)).flatMap
      (fun i => diffAt t t t.all_events[i]? t.all_events[i]? i) = []
  rw [List.flatMap_eq_nil_iff]
  intro i hi
  rw [List.mem_range, Nat.max_self] at hi
  rw [List.getElem?_eq_getElem hi]
  exact diffAt_self t t _ i

/-- A trace with event count zero has an empty canonical event sequence. -/
theorem all_events_eq_nil_of_event_count (t : Trace) (h : t.event_count = 0) :
    t.all_events = [] := by
  have hlen : t.all_events.length = 0 := by
    rw [Trace.all_events, List.length_insertionSort, Trace.flat_events,
      List.length_flatMap]
    rw [Trace.event_count] at h
    simpa using h
  exact List.eq_nil_of_length_eq_zero hlen

/-- C4: `diff(T, T)` is identical; the `identical` flag is true iff the
divergence list is empty; two traces with no events diff as identical with
an empty divergence list. -/
theorem diff_identity (t a b : Trace) :
    (diff_traces t t).identical = true ∧
    ((diff_traces a b).identical = true ↔ (diff_traces a b).divergences = []) ∧
    (a.event_count = 0 → b.event_count = 0 →
      (diff_traces a b).identical = true ∧ (diff_traces a b).divergences = []) := by
  refine ⟨?_, ?_, ?_⟩
  · rw [DiffResult.identical, diff_self_divergences]
    rfl
  · rw [DiffResult.identical]
    exact List.isEmpty_iff
  · intro ha hb
    have hdiv : (diff_traces a b).divergences = [] := by
      show (List.range (max a.all_events.length b.all_events.length)).flatMap
          (fun i => diffAt a b a.all_events[i]? b.all_events[i]? i) = []
      rw [all_events_eq_nil_of_event_count a ha, all_events_eq_nil_of_event_count b hb]
      rfl
    exact ⟨by rw [DiffResult.identical, hdiv]; rfl, hdiv⟩

/-- An event-free trace. -/
def demoEmptyA : Trace :=
  { trace_id := "ea", name := "a", start_time := 0, end_time := Option.none
    spans := [], metadata := [] }

/-- A second event-free trace. -/
def demoEmptyB : Trace :=
  { trace_id := "eb", name := "b", start_time := 0, end_time := Option.none
    spans := [], metadata := [] }

/-- Witness for C4 at the demonstration trace and two event-free traces. -/
theorem diff_identity_witness :
    (diff_traces demoTrace demoTrace).identical = true ∧
    (diff_traces demoEmptyA demoEmptyB).identical = true :=
  ⟨(diff_identity demoTrace demoTrace demoTrace).1,
   ((diff_identity demoTrace demoEmptyA demoEmptyB).2.2 (by decide) (by decide)).1⟩

/-! ## C5: one extra trailing event -/

/-- Flat-mapping over `range n` a function that is empty everywhere except
at `j < n` yields exactly the block at `j`. -/
theorem range_flatMap_single {α : Type} (f : Nat → List α) (d : List α) (n j : Nat)
    (hj : j < n) (h : ∀ i, i < n → f i = if i = j then d else []) :
    (List.range n).flatMap f = d := by
  induction n with
  | zero => omega
  | succ n ih =>
    rw [List.range_succ, List.flatMap_append]
    by_cases hjn : j < n
    · rw [ih hjn (fun i hi => h i (by omega))]
      have hn : f n = [] := by rw [h n (by omega), if_neg (by omega)]
      simp [hn]
    · have hjeq : j = n := by omega
      have h0 : (List.range n).flatMap f = [] := by
        rw [List.flatMap_eq_nil_iff]
        intro i hi
        rw [List.mem_range] at hi
        rw [h i (by omega), if_neg (by omega)]
      rw [h0, List.nil_append]
      simp [h n (by omega), hjeq]

/-- C5: if one trace's canonical event sequence extends the other's by
exactly one trailing event, the diff holds exactly one divergence, of
severity "warning", referencing only the longer side's event and span. -/
theorem diff_extra_trailing_event (a b : Trace) (x : Event) :
    (b.all_events = a.all_events ++ [x] →
      (diff_traces a b).divergences =
        [{ position := a.all_events.length
           description := "Trace B has extra event: " ++ x.event_type.value
           trace_a_event := Option.none
           trace_b_event := some x
           trace_a_span := ""
           trace_b_span := span_for_event b x
           severity := "warning" }]) ∧
    (a.all_events = b.all_events ++ [x] →
      (diff_traces a b).divergences =
        [{ position := b.all_events.length
           description := "Trace A has extra event: " ++ x.event_type.value
           trace_a_event := some x
           trace_b_event := Option.none
           trace_a_span := span_for_event a x
           trace_b_span := ""
           severity := "warning" }]) := by
  constructor
  · intro hb
    show (List.range (max a.all_events.length b.all_events.length)).flatMap
        (fun i => diffAt a b a.all_events[i]? b.all_events[i]? i) = _
    rw [hb]
    have hmax : max a.all_events.length (a.all_events ++ [x]).length
        = a.all_events.length + 1 := by
      rw [List.length_append, List.length_singleton]
      omega
    rw [hmax]
    apply range_flatMap_single _ _ _ a.all_events.length (by omega)
    intro i hi
    by_cases hij : i = a.all_events.length
    · subst hij
      rw [if_pos rfl, List.getElem?_eq_none (Nat.le_refl _), List.getElem?_concat_length]
      rfl
    · have hilt : i < a.all_events.length := by omega
      rw [if_neg hij, List.getElem?_append_left hilt, List.getElem?_eq_getElem hilt]
      exact diffAt_self a b _ i
  · intro ha
    show (List.range (max a.all_events.length b.all_events.length)).flatMap
        (fun i => diffAt a b a.all_events[i]? b.all_events[i]? i) = _
    rw [ha]
    have hmax : max (b.all_events ++ [x]).length b.all_events.length
        = b.all_events.length + 1 := by
      rw [List.length_append, List.length_singleton]
      omega
    rw [hmax]
    apply range_flatMap_single _ _ _ b.all_events.length (by omega)
    intro i hi
    by_cases hij : i = b.all_events.length
    · subst hij
      rw [if_pos rfl, List.getElem?_eq_none (Nat.le_refl _), List.getElem?_concat_length]
      rfl
    · have hilt : i < b.all_events.length := by omega
      rw [if_neg hij, List.getElem?_append_left hilt, List.getElem?_eq_getElem hilt]
      exact diffAt_self a b _ i

/-- A one-event trace. -/
def demoExtraA : Trace :=
  { trace_id := "xa", name := "run", start_time := 0, end_time := Option.none
    spans :=
      [ { name := "s", span_id := "sx", parent_id := Option.none
          start_time := 0, end_time := Option.none
          events :=
            [ { event_type := .llm_request, timestamp := 1
                data := [], event_id := "ex1" } ]
          metadata := [] } ]
    metadata := [] }

/-- The same trace with one extra trailing event. -/
def demoExtraB : Trace :=
  { trace_id := "xb", name := "run", start_time := 0, end_time := Option.none
    spans :=
      [ { name := "s", span_id := "sy", parent_id := Option.none
          start_time := 0, end_time := Option.none
          events :=
            [ { event_type := .llm_request, timestamp := 1
                data := [], event_id := "ex1" }
            , { event_type := .llm_response, timestamp := 2
                data := [], event_id := "ex2" } ]
          metadata := [] } ]
    metadata := [] }

/-- The trailing extra event of `demoExtraB`. -/
def demoExtraEvent : Event :=
  { event_type := .llm_response, timestamp := 2, data := [], event_id := "ex2" }

/-- Witness for C5: B has exactly one extra trailing event. -/
theorem diff_extra_trailing_event_witness :
    (diff_traces demoExtraA demoExtraB).divergences =
      [{ position := demoExtraA.all_events.length
         description := "Trace B has extra event: " ++ demoExtraEvent.event_type.value
         trace_a_event := Option.none
         trace_b_event := some demoExtraEvent
         trace_a_span := ""
         trace_b_span := span_for_event demoExtraB demoExtraEvent
         severity := "warning" }] :=
  (diff_extra_trailing_event demoExtraA demoExtraB demoExtraEvent).1 (by decide)

/-! ## C6: differing tool_call `tool` field -/

/-- The lockstep comparison of two `tool_call` events whose `tool` payload
lookups differ emits exactly the critical tool divergence. A missing `tool`
key participates as the falsy `None` via `pyGet`; the comparison is total
and never fails. -/
theorem diffAt_tool_call (ta tb : Trace) (ea eb : Event) (i : Nat)
    (hta : ea.event_type = .tool_call) (htb : eb.event_type = .tool_call)
    (htool : pyGet ea.data "tool" ≠ pyGet eb.data "tool") :
    diffAt ta tb (some ea) (some eb) i =
      [{ position := i
         description := "Different tool called: " ++ pyStrVal (pyGet ea.data "tool")
           ++ " vs " ++ pyStrVal (pyGet eb.data "tool")
         trace_a_event := some ea
         trace_b_event := some eb
         trace_a_span := span_for_event ta ea
         trace_b_span := span_for_event tb eb
         severity := "critical" }] := by
  show (if ea.event_type ≠ eb.event_type then _ else _) = _
  rw [if_neg (by rw [hta, htb]; simp)]
  show (match ea.event_type with | _ => _) = _
  rw [hta]
  show (if pyGet ea.data "tool" ≠ pyGet eb.data "tool" then _ else _) = _
  rw [if_pos htool]

/-- C6: when the two canonical event sequences agree everywhere except that
one `tool_call` event's `tool` payload field differs, the diff holds
exactly one divergence, of severity "critical", and `critical_count` is
1. -/
theorem diff_tool_call_critical (a b : Trace) (j : Nat) (ea eb : Event)
    (hlen : b.all_events.length = a.all_events.length)
    (hj : j < a.all_events.length)
    (ha : a.all_events[j]? = some ea)
    (hb : b.all_events[j]? = some eb)
    (hother : ∀ i, i < a.all_events.length → i ≠ j → a.all_events[i]? = b.all_events[i]?)
    (hta : ea.event_type = .tool_call) (htb : eb.event_type = .tool_call)
    (htool : pyGet ea.data "tool" ≠ pyGet eb.data "tool") :
    (diff_traces a b).divergences =
      [{ position := j
         description := "Different tool called: " ++ pyStrVal (pyGet ea.data "tool")
           ++ " vs " ++ pyStrVal (pyGet eb.data "tool")
         trace_a_event := some ea
         trace_b_event := some eb
         trace_a_span := span_for_event a ea
         trace_b_span := span_for_event b eb
         severity := "critical" }] ∧
    (diff_traces a b).critical_count = 1 := by
  have hdivs : (diff_traces a b).divergences =
      [{ position := j
         description := "Different tool called: " ++ pyStrVal (pyGet ea.data "tool")
           ++ " vs " ++ pyStrVal (pyGet eb.data "tool")
         trace_a_event := some ea
         trace_b_event := some eb
         trace_a_span := span_for_event a ea
         trace_b_span := span_for_event b eb
         severity := "critical" }] := by
    show (List.range (max a.all_events.length b.all_events.length)).flatMap
        (fun i => diffAt a b a.all_events[i]? b.all_events[i]? i) = _
    rw [hlen, Nat.max_self]
    apply range_flatMap_single _ _ _ j hj
    intro i hi
    by_cases hij : i = j
    · subst hij
      rw [if_pos rfl, ha, hb]
      exact diffAt_tool_call a b ea eb i hta htb htool
    · rw [if_neg hij, ← hother i hi hij, List.getElem?_eq_getElem hi]
      exact diffAt_self a b _ i
  refine ⟨hdivs, ?_⟩
  rw [DiffResult.critical_count, hdivs]
  rfl

/-- A trace whose single event is a `tool_call` with `tool = "search"`. -/
def demoToolA : Trace :=
  { trace_id := "ca", name := "run", start_time := 0, end_time := Option.none
    spans :=
      [ { name := "s", span_id := "sa", parent_id := Option.none
          start_time := 0, end_time := Option.none
          events :=
            [ { event_type := .tool_call, timestamp := 1
                data := [("tool", PyVal.str "search")], event_id := "ca1" } ]
          metadata := [] } ]
    metadata := [] }

/-- The same shape of trace whose `tool_call` payload has no `tool` key at
all, exercising the graceful missing-key comparison. -/
def demoToolB : Trace :=
  { trace_id := "cb", name := "run", start_time := 0, end_time := Option.none
    spans :=
      [ { name := "s", span_id := "sb", parent_id := Option.none
          start_time := 0, end_time := Option.none
          events :=
            [ { event_type := .tool_call, timestamp := 1
                data := [], event_id := "cb1" } ]
          metadata := [] } ]
    metadata := [] }

/-- The `tool_call` event of `demoToolA`. -/
def demoToolEventA : Event :=
  { event_type := .tool_call, timestamp := 1
    data := [("tool", PyVal.str "search")], event_id := "ca1" }

/-- The `tool_call` event of `demoToolB` (no `tool` key). -/
def demoToolEventB : Event :=
  { event_type := .tool_call, timestamp := 1, data := [], event_id := "cb1" }

/-- Witness for C6, with the `tool` key entirely absent on the B side. -/
theorem diff_tool_call_critical_witness :
    (diff_traces demoToolA demoToolB).divergences =
      [{ position := 0
         description := "Different tool called: "
           ++ pyStrVal (pyGet demoToolEventA.data "tool")
           ++ " vs " ++ pyStrVal (pyGet demoToolEventB.data "tool")
         trace_a_event := some demoToolEventA
         trace_b_event := some demoToolEventB
         trace_a_span := span_for_event demoToolA demoToolEventA
         trace_b_span := span_for_event demoToolB demoToolEventB
         severity := "critical" }] ∧
    (diff_traces demoToolA demoToolB).critical_count = 1 :=
  diff_tool_call_critical demoToolA demoToolB 0 demoToolEventA demoToolEventB
    (by decide) (by decide) (by decide) (by decide)
    (fun i hi hne => absurd (Nat.lt_one_iff.mp hi) hne)
    (by decide) (by decide) (by decide)

/-! ## C7: malformed span record aborts the load -/

/-- A span record with no `name` field fails to parse. -/
theorem Span.from_record_no_name (sr : SpanRecord) (h : sr.name = Option.none) :
    Span.from_record sr = Except.error "KeyError: name" := by
  rw [Span.from_record, h]

/-- If any span line of the file fails to parse, the whole line loop
fails. -/
theorem loadAux_error_of_bad_span (sr : SpanRecord) (msg : String)
    (hbad : Span.from_record sr = Except.error msg) :
    ∀ (recs : List FileRecord) (h : Option HeaderRecord) (acc : List Span),
      FileRecord.span sr ∈ recs → ∃ m, loadAux recs h acc = Except.error m := by
  intro recs
  induction recs with
  | nil => intro h acc hmem; cases hmem
  | cons r rest ih =>
    intro h acc hmem
    cases r with
    | header hr =>
      have : FileRecord.span sr ∈ rest := by
        rcases List.mem_cons.mp hmem with heq | hmem'
        · cases heq
        · exact hmem'
      obtain ⟨m, hm⟩ := ih (some hr) acc this
      exact ⟨m, by rw [loadAux]; exact hm⟩
    | span s =>
      cases hs : Span.from_record s with
      | error m => exact ⟨m, by rw [loadAux, hs]⟩
      | ok sp =>
        have hne : FileRecord.span sr ≠ FileRecord.span s := by
          intro heq
          cases heq
          rw [hbad] at hs
          cases hs
        have hmem' : FileRecord.span sr ∈ rest := by
          rcases List.mem_cons.mp hmem with heq | hmem'
          · exact absurd heq hne
          · exact hmem'
        obtain ⟨m, hm⟩ := ih h (acc ++ [sp]) hmem'
        exact ⟨m, by rw [loadAux, hs]; exact hm⟩
    | other =>
      have hmem' : FileRecord.span sr ∈ rest := by
        rcases List.mem_cons.mp hmem with heq | hmem'
        · cases heq
        · exact hmem'
      obtain ⟨m, hm⟩ := ih h acc hmem'
      exact ⟨m, by rw [loadAux]; exact hm⟩

/-- C7: a persisted file containing a span record with no `name` field
fails to load — the error is surfaced and no (partial) trace is
returned. -/
theorem load_missing_span_name_fails (recs : List FileRecord) (sr : SpanRecord)
    (hmem : FileRecord.span sr ∈ recs) (hname : sr.name = Option.none) :
    ∃ msg, Trace.load recs = Except.error msg := by
  obtain ⟨m, hm⟩ := loadAux_error_of_bad_span sr "KeyError: name"
    (Span.from_record_no_name sr hname) recs Option.none [] hmem
  refine ⟨m, ?_⟩
  rw [Trace.load, hm]
  rfl

/-- A malformed persisted file: a valid header line followed by a span line
with no `name` field. -/
def demoBadFile : List FileRecord :=
  [ FileRecord.header
      { trace_id := some "tbad", name := some "bad", start_time := some 0
        end_time := Option.none, metadata := some [] }
  , FileRecord.span
      { name := Option.none, span_id := some "sb", parent_id := Option.none
        start_time := some 0, end_time := Option.none
        events := some [], metadata := some [] } ]

/-- Witness for C7 at a concrete malformed file. -/
theorem load_missing_span_name_fails_witness :
    ∃ msg, Trace.load demoBadFile = Except.error msg :=
  load_missing_span_name_fails demoBadFile
    { name := Option.none, span_id := some "sb", parent_id := Option.none
      start_time := some 0, end_time := Option.none
      events := some [], metadata := some [] }
    (by decide) rfl

/-! ## C8: current_span_events at and past the end -/

/-- The engine on the one-event trace after one `step()`: the cursor sits
past the last tape index (at `total_steps`). -/
def demoEngine8 : ReplayEngine := ((ReplayEngine.init demoExtraA).step).2

/-- Counterexample to C8: with the cursor past the end of a non-empty tape,
`current_span_events()` returns the empty list (the guard
`self._position >= len(self._flat)` fires before the `min(...)` fallback
could select the last valid position), so the result is empty on a
non-empty tape. -/
theorem current_span_events_counterexample :
    demoEngine8.flat ≠ [] ∧
    demoEngine8.position = (demoEngine8.total_steps : Int) ∧
    demoEngine8.current_span_events = [] := by decide

/-- C8 (amended): `current_span_events()` returns the pairs sharing the
span id of the pair at the cursor when `0 ≤ position < total_steps`, and
returns the empty list whenever the tape is empty or the cursor is at or
past the end. -/
theorem current_span_events_amended (e : ReplayEngine) :
    ((e.flat = [] ∨ (e.flat.length : Int) ≤ e.position) → e.current_span_events = []) ∧
    (∀ p, 0 ≤ e.position → e.position < (e.flat.length : Int) →
      pyIndex e.flat e.position = some p →
      e.current_span_events = e.flat.filter (fun q => q.1.span_id == p.1.span_id)) := by
  constructor
  · intro h
    have hc : e.flat.isEmpty = true ∨ (e.flat.length : Int) ≤ e.position := by
      rcases h with h | h
      · exact Or.inl (List.isEmpty_iff.mpr h)
      · exact Or.inr h
    rw [ReplayEngine.current_span_events, if_pos hc]
  · intro p h0 hlt hpy
    have hc : ¬(e.flat.isEmpty = true ∨ (e.flat.length : Int) ≤ e.position) := by
      rintro (hemp | hle)
      · rw [List.isEmpty_iff] at hemp
        rw [hemp] at hlt
        simp at hlt
        omega
      · omega
    rw [ReplayEngine.current_span_events, if_neg hc]
    have hmin : min e.position ((e.flat.length : Int) - 1) = e.position := by omega
    rw [hmin, hpy]

/-- The pair at tape position 0 of the demonstration trace. -/
def demoPairHead : Span × Event :=
  (demoSpan1,
   { event_type := .llm_request, timestamp := 1
     data := [("model", PyVal.str "m")], event_id := "e1" })

/-- Witness for the amended C8 at cursor position 0 of the demonstration
trace. -/
theorem current_span_events_amended_witness :
    (ReplayEngine.init demoTrace).current_span_events
      = (ReplayEngine.init demoTrace).flat.filter
          (fun q => q.1.span_id == demoPairHead.1.span_id) :=
  (current_span_events_amended (ReplayEngine.init demoTrace)).2 demoPairHead
    (by decide) (by decide) (by decide)

/-! ## C9: search semantics -/

/-- A trace whose single tape entry has span name `"a"`, event type label
`"log"` and payload rendering `"\x7b\x7d"`. -/
def demoTrace9 : Trace :=
  { trace_id := "t9", name := "nine", start_time := 0, end_time := Option.none
    spans :=
      [ { name := "a", span_id := "s9", parent_id := Option.none
          start_time := 0, end_time := Option.none
          events :=
            [ { event_type := .log, timestamp := 1, data := [], event_id := "e9" } ]
          metadata := [] } ]
    metadata := [] }

/-- Counterexample to C9: the query `"a log"` spans the boundary between
the span name and the event type label inside the concatenated searchable
string, so index 0 is returned although the query occurs in none of the
three individual fields. -/
theorem search_substring_counterexample :
    (ReplayEngine.init demoTrace9).flat.map
        (fun p => (p.1.name, p.2.event_type.value, pyStrData p.2.data))
      = [("a", "log", pyStrData [])] ∧
    (ReplayEngine.init demoTrace9).search "a log" = [0] ∧
    pyIn (pyLower "a log") (pyLower "a") = false ∧
    pyIn (pyLower "a log") (pyLower "log") = false ∧
    pyIn (pyLower "a log") (pyLower (pyStrData [])) = false := by decide

/-- Index-shifted characterization of the search scan. -/
theorem searchAux_mem (ql : String) :
    ∀ (l : List (Span × Event)) (base j : Nat),
      j ∈ searchAux ql base l ↔
        ∃ k p, j = base + k ∧ l[k]? = some p ∧ pyIn ql (pyLower (searchable p)) = true := by
  intro l
  induction l with
  | nil =>
    intro base j
    simp [searchAux]
  | cons p rest ih =>
    intro base j
    rw [searchAux, List.mem_append]
    constructor
    · rintro (hj | hj)
      · by_cases hc : pyIn ql (pyLower (searchable p)) = true
        · rw [if_pos hc] at hj
          have hbase : j = base := List.mem_singleton.mp hj
          exact ⟨0, p, by omega, by simp, hc⟩
        · rw [if_neg hc] at hj
          cases hj
      · obtain ⟨k, q, hk, hget, hq⟩ := (ih (base + 1) j).mp hj
        refine ⟨k + 1, q, by omega, ?_, hq⟩
        rw [List.getElem?_cons_succ]
        exact hget
    · rintro ⟨k, q, rfl, hget, hq⟩
      cases k with
      | zero =>
        rw [List.getElem?_cons_zero] at hget
        injection hget with hpq
        subst hpq
        left
        rw [if_pos hq]
        simp
      | succ k =>
        rw [List.getElem?_cons_succ] at hget
        right
        exact (ih (base + 1) (base + (k + 1))).mpr ⟨k, q, by omega, hget, hq⟩

/-- C9 (amended): `search(query)` returns exactly the tape indices whose
concatenated searchable string — span name, space, event type label,
space, stringified payload — contains the query as a case-insensitive
substring (not necessarily within any single one of the three fields). -/
theorem search_concatenation (e : ReplayEngine) (q : String) (i : Nat) :
    i ∈ e.search q ↔
      ∃ p, e.flat[i]? = some p ∧ pyIn (pyLower q) (pyLower (searchable p)) = true := by
  rw [ReplayEngine.search, searchAux_mem]
  constructor
  · rintro ⟨k, p, rfl, hget, hp⟩
    exact ⟨p, by simpa using hget, hp⟩
  · rintro ⟨p, hget, hp⟩
    exact ⟨i, p, by omega, hget, hp⟩

/-! ## C10: the cursor never escapes [0, total_steps] -/

/-- One replay-engine operation, as invoked by a driving caller. -/
inductive ReplayOp where
  | step
  | step_back
  | peek
  | jump (target : Int)
  | reset
  | search (query : String)
  | current_span_events

/-- The state transition of one operation. `peek`, `search` and
`current_span_events` never assign the cursor in the source, so their
transition is the identity on the state. -/
def applyOp (e : ReplayEngine) : ReplayOp → ReplayEngine
  | .step => e.step.2
  | .step_back => e.step_back.2
  | .peek => e
  | .jump t => (e.jump t).2
  | .reset => e.reset
  | .search _ => e
  | .current_span_events => e

/-- Run a sequence of operations. -/
def runOps (e : ReplayEngine) : List ReplayOp → ReplayEngine
  | [] => e
  | op :: rest => runOps (applyOp e op) rest

/-- No operation changes the tape. -/
theorem applyOp_flat (e : ReplayEngine) (op : ReplayOp) : (applyOp e op).flat = e.flat := by
  cases op with
  | step =>
    show e.step.2.flat = e.flat
    rw [ReplayEngine.step]
    split <;> rfl
  | step_back =>
    show e.step_back.2.flat = e.flat
    rw [ReplayEngine.step_back]
    split <;> rfl
  | peek => rfl
  | jump t =>
    show (e.jump t).2.flat = e.flat
    rw [ReplayEngine.jump]
    split <;> rfl
  | reset => rfl
  | search q => rfl
  | current_span_events => rfl

/-- Every operation preserves `0 ≤ position ≤ tape length`. -/
theorem applyOp_inv (e : ReplayEngine) (op : ReplayOp)
    (h : 0 ≤ e.position ∧ e.position ≤ (e.flat.length : Int)) :
    0 ≤ (applyOp e op).position ∧
      (applyOp e op).position ≤ (((applyOp e op).flat.length : Nat) : Int) := by
  obtain ⟨h1, h2⟩ := h
  rw [applyOp_flat]
  cases op with
  | step =>
    show 0 ≤ e.step.2.position ∧ e.step.2.position ≤ (e.flat.length : Int)
    rw [ReplayEngine.step]
    by_cases hc : e.has_next = true
    · rw [if_pos hc]
      simp only [ReplayEngine.has_next, decide_eq_true_eq] at hc
      show 0 ≤ e.position + 1 ∧ e.position + 1 ≤ (e.flat.length : Int)
      omega
    · rw [if_neg hc]
      exact ⟨h1, h2⟩
  | step_back =>
    show 0 ≤ e.step_back.2.position ∧ e.step_back.2.position ≤ (e.flat.length : Int)
    rw [ReplayEngine.step_back]
    by_cases hc : e.has_prev = true
    · rw [if_pos hc]
      simp only [ReplayEngine.has_prev, decide_eq_true_eq] at hc
      show 0 ≤ e.position - 1 ∧ e.position - 1 ≤ (e.flat.length : Int)
      omega
    · rw [if_neg hc]
      exact ⟨h1, h2⟩
  | peek => exact ⟨h1, h2⟩
  | jump t =>
    show 0 ≤ (e.jump t).2.position ∧ (e.jump t).2.position ≤ (e.flat.length : Int)
    rw [ReplayEngine.jump]
    by_cases hc : 0 ≤ t ∧ t < (e.flat.length : Int)
    · rw [if_pos hc]
      show 0 ≤ t ∧ t ≤ (e.flat.length : Int)
      omega
    · rw [if_neg hc]
      exact ⟨h1, h2⟩
  | reset =>
    show 0 ≤ (0 : Int) ∧ (0 : Int) ≤ (e.flat.length : Int)
    omega
  | search q => exact ⟨h1, h2⟩
  | current_span_events => exact ⟨h1, h2⟩

/-- The bound is preserved along any run. -/
theorem runOps_inv (ops : List ReplayOp) :
    ∀ e : ReplayEngine, 0 ≤ e.position ∧ e.position ≤ (e.flat.length : Int) →
      0 ≤ (runOps e ops).position ∧
        (runOps e ops).position ≤ ((runOps e ops).flat.length : Int) := by
  induction ops with
  | nil => intro e h; exact h
  | cons op rest ih => intro e h; exact ih (applyOp e op) (applyOp_inv e op h)

/-- C10: starting from a fresh engine, no finite sequence of operations can
move the cursor outside `[0, total_steps]`, and the read-only operations
`peek`, `search` and `current_span_events` leave the state (hence the
position) unchanged. -/
theorem cursor_position_bounded (t : Trace) (ops : List ReplayOp) :
    (0 ≤ (runOps (ReplayEngine.init t) ops).position ∧
      (runOps (ReplayEngine.init t) ops).position
        ≤ ((runOps (ReplayEngine.init t) ops).total_steps : Int)) ∧
    (∀ e : ReplayEngine, applyOp e ReplayOp.peek = e ∧
      (∀ q, applyOp e (ReplayOp.search q) = e) ∧
      applyOp e ReplayOp.current_span_events = e) := by
  refine ⟨?_, fun e => ⟨rfl, fun _ => rfl, rfl⟩⟩
  rw [ReplayEngine.total_steps]
  exact runOps_inv ops (ReplayEngine.init t) ⟨le_refl 0, Int.natCast_nonneg _⟩
